import Mathlib

/-!
Verification of the sales-analysis notebook (`share.ipynb`).

The notebook builds a synthetic sales table (cell-3), runs a sequence of
filter / group-by / pivot / percentage-change steps over it, and renders
charts.  We embed the data model and the tabular operations the claims are
about.

Modelling conventions:
* Machine floats are not modelled.  The sales and cost values of cell-3 are
  produced by floating-point expressions over `np.random.normal` draws and
  truncated with `int(...)`; we abstract the pair of final integer values of
  each loop iteration as an oracle stream `draw : Nat → Int × Int`.  All the
  structure the claims talk about (the iteration order, the keys, the
  `profit = sales - cost` construction, every aggregation) is embedded
  exactly.  Means, margins and percentage changes, computed by pandas in
  floating point, are modelled with exact rationals.
* A pandas `DataFrame` is a list of rows.  For the numeric claims we use a
  typed record `Row`; for the claims about the column set (the `df['month']`
  assignment of cell-13) we additionally model rows as association lists of
  column name to value, matching the dict literals that cell-3 appends.
-/

set_option maxRecDepth 100000

namespace Share

/-- Calendar date, as produced by `pd.date_range(start='2023-01-01',
periods=12, freq='M')` in cell-3: twelve month-end timestamps. -/
structure Date where
  year : Nat
  month : Nat
  day : Nat
deriving DecidableEq, Repr

/-- Number of days of month `m` of year `y` (Gregorian), giving the month-end
day that pandas `freq='M'` produces. -/
def daysInMonth (y m : Nat) : Nat :=
  if m = 2 then
    (if y % 4 = 0 && (y % 100 != 0 || y % 400 = 0) then 29 else 28)
  else if m = 4 || m = 6 || m = 9 || m = 11 then 30
  else 31

/-- Cell-3 `months`: `pd.date_range(start='2023-01-01', periods=12, freq='M')`,
the twelve month-end dates of 2023. -/
def months : List Date :=
  (List.range 12).map (fun i => ⟨2023, i + 1, daysInMonth 2023 (i + 1)⟩)

/-- Cell-3 `regions`. -/
def regions : List String := ["North", "South", "East", "West"]

/-- Cell-3 `products`. -/
def products : List String := ["Product A", "Product B", "Product C"]

/-- Cell-3 `base_sales[region][product]`: the base sales figure that feeds the
floating-point sales expression of the generation loop. -/
def base_sales (region product : String) : Int :=
  match region, product with
  | "North", "Product A" => 100 | "North", "Product B" => 150 | "North", "Product C" => 80
  | "South", "Product A" => 120 | "South", "Product B" => 90  | "South", "Product C" => 110
  | "East",  "Product A" => 80  | "East",  "Product B" => 120 | "East",  "Product C" => 140
  | "West",  "Product A" => 150 | "West",  "Product B" => 100 | "West",  "Product C" => 90
  | _, _ => 0

/-- One row of the DataFrame built in cell-3:
`(date, region, product, sales, cost, profit)`. -/
structure Row where
  date : Date
  region : String
  product : String
  sales : Int
  cost : Int
  profit : Int
deriving DecidableEq, Repr

/-- The dict literal appended by one iteration of the cell-3 loop: given the
iteration's key and the two integers produced by its floating-point
sales/cost expressions, the row stores `profit = sales - cost`. -/
def mkRow (region product : String) (date : Date) (sc : Int × Int) : Row :=
  { date := date, region := region, product := product,
    sales := sc.1, cost := sc.2, profit := sc.1 - sc.2 }

/-- The iteration space of the nested cell-3 loop, in loop order:
`for region in regions: for product in products: for month in months`. -/
def combos : List (String × String × Date) :=
  regions.flatMap (fun r => products.flatMap (fun p => months.map (fun m => (r, p, m))))

/-- Cell-3 generation loop: iteration `i` of the nested loop consumes the
`i`-th pair of the oracle stream (its `(sales, cost)` integers, abstracting
the two `np.random.normal` draws and the float arithmetic around them) and
appends the corresponding row. -/
def generate (draw : Nat → Int × Int) : List Row :=
  combos.enum.map (fun ic => mkRow ic.2.1 ic.2.2.1 ic.2.2.2 (draw ic.1))

/-- A run of cell-3: `np.random.seed(seed)` makes the stream of draws a
deterministic function of the seed, modelled as `prng seed`; the loop then
generates from that stream.  The notebook runs it with `seed = 42`. -/
def run_generation (prng : Nat → Nat → Int × Int) (seed : Nat) : List Row :=
  generate (prng seed)

/-- The `(region, product, date)` key of a row. -/
def keyOf (r : Row) : String × String × Date := (r.region, r.product, r.date)

theorem length_combos : combos.length = 144 := by decide

theorem keys_generate (draw : Nat → Int × Int) :
    (generate draw).map keyOf = combos := by
  have h : (fun ic : Nat × String × String × Date =>
      keyOf (mkRow ic.2.1 ic.2.2.1 ic.2.2.2 (draw ic.1))) = Prod.snd := by
    funext ic
    simp [keyOf, mkRow]
  simp [generate, List.map_map, Function.comp_def]
  calc combos.enum.map (fun ic => keyOf (mkRow ic.2.1 ic.2.2.1 ic.2.2.2 (draw ic.1)))
      = combos.enum.map Prod.snd := by rw [h]
    _ = combos := List.enum_map_snd combos

theorem length_generate (draw : Nat → Int × Int) :
    (generate draw).length = 144 := by
  have := congrArg List.length (keys_generate draw)
  simpa [length_combos] using this

/-- Lookup of the value stored for key `k` in an association list; models
indexing the keyed result of a pandas `groupby` by a key. -/
def lookupKey {κ α : Type} [DecidableEq κ] (k : κ) : List (κ × α) → Option α
  | [] => none
  | (k0, v) :: rest => if k0 = k then some v else lookupKey k rest

/-- Fold one keyed value into the accumulated groups: combine it with the
existing entry for its key, or open a new group at the end (the order in
which `groupby` discovers groups while scanning the table). -/
def insertWith {κ α : Type} [DecidableEq κ] (comb : α → α → α) (k : κ) (v : α) :
    List (κ × α) → List (κ × α)
  | [] => [(k, v)]
  | (k0, w) :: rest =>
      if k0 = k then (k0, comb w v) :: rest else (k0, w) :: insertWith comb k v rest

/-- `t.groupby(key)` aggregating `meas` with `sum`: scan the rows in table
order, accumulating the within-group sum of the measure for each key. -/
def groupSum {ρ κ α : Type} [DecidableEq κ] [AddMonoid α] (key : ρ → κ) (meas : ρ → α)
    (t : List ρ) : List (κ × α) :=
  t.foldl (fun acc r => insertWith (· + ·) (key r) (meas r) acc) []

theorem lookupKey_insertWith {κ α : Type} [DecidableEq κ] (comb : α → α → α)
    (k j : κ) (v : α) (l : List (κ × α)) :
    lookupKey j (insertWith comb k v l) =
      if k = j then
        match lookupKey j l with
        | some w => some (comb w v)
        | none => some v
      else lookupKey j l := by
  induction l with
  | nil =>
      by_cases h : k = j <;> simp [insertWith, lookupKey, h]
  | cons p rest ih =>
      obtain ⟨k0, w⟩ := p
      by_cases h0 : k0 = k
      · subst h0
        by_cases h : k0 = j
        · subst h
          simp [insertWith, lookupKey]
        · simp [insertWith, lookupKey, h]
      · by_cases h : k0 = j
        · subst h
          have hkj : ¬ k = k0 := fun hh => h0 hh.symm
          simp [insertWith, lookupKey, h0, hkj]
        · simp [insertWith, lookupKey, h0, h, ih]

theorem lookupKey_foldl_insert {ρ κ α : Type} [DecidableEq κ] [AddMonoid α]
    (key : ρ → κ) (meas : ρ → α) (k : κ) (t : List ρ) (acc : List (κ × α)) :
    lookupKey k (t.foldl (fun a r => insertWith (· + ·) (key r) (meas r) a) acc) =
      match lookupKey k acc with
      | some w => some (w + ((t.filter (fun r => decide (key r = k))).map meas).sum)
      | none =>
        if (t.filter (fun r => decide (key r = k))).isEmpty then none
        else some (((t.filter (fun r => decide (key r = k))).map meas).sum) := by
  induction t generalizing acc with
  | nil =>
      cases h : lookupKey k acc <;> simp [h]
  | cons r rest ih =>
      simp only [List.foldl_cons]
      rw [ih]
      rw [lookupKey_insertWith]
      by_cases hk : key r = k
      · cases h : lookupKey k acc with
        | none => simp [hk, h, List.isEmpty_iff]
        | some w => simp [hk, h, add_assoc]
      · cases h : lookupKey k acc with
        | none => simp [hk, h]
        | some w => simp [hk, h]

/-- Each entry of a sum-aggregating group-by holds exactly the sum of the
measure over the rows whose key matches, and a key has an entry iff some row
has it. -/
theorem lookupKey_groupSum {ρ κ α : Type} [DecidableEq κ] [AddMonoid α]
    (key : ρ → κ) (meas : ρ → α) (t : List ρ) (k : κ) :
    lookupKey k (groupSum key meas t) =
      if (t.filter (fun r => decide (key r = k))).isEmpty then none
      else some (((t.filter (fun r => decide (key r = k))).map meas).sum) := by
  have h := lookupKey_foldl_insert key meas k t []
  simpa [groupSum, lookupKey] using h

theorem sum_values_insertWith {κ α : Type} [DecidableEq κ] [AddCommMonoid α]
    (k : κ) (v : α) (l : List (κ × α)) :
    ((insertWith (· + ·) k v l).map Prod.snd).sum = (l.map Prod.snd).sum + v := by
  induction l with
  | nil => simp [insertWith]
  | cons p rest ih =>
      obtain ⟨k0, w⟩ := p
      by_cases h0 : k0 = k
      · simp [insertWith, h0, add_assoc, add_comm, add_left_comm]
      · simp [insertWith, h0, ih, add_assoc, add_comm, add_left_comm]

theorem sum_values_foldl_insert {ρ κ α : Type} [DecidableEq κ] [AddCommMonoid α]
    (key : ρ → κ) (meas : ρ → α) (t : List ρ) (acc : List (κ × α)) :
    ((t.foldl (fun a r => insertWith (· + ·) (key r) (meas r) a) acc).map Prod.snd).sum =
      (acc.map Prod.snd).sum + (t.map meas).sum := by
  induction t generalizing acc with
  | nil => simp
  | cons r rest ih =>
      simp only [List.foldl_cons]
      rw [ih, sum_values_insertWith]
      simp [add_assoc, add_comm, add_left_comm]

/-- The group sums of a group-by partition the table's total: summing the
groups' values recovers the sum of the measure over the whole table. -/
theorem sum_values_groupSum {ρ κ α : Type} [DecidableEq κ] [AddCommMonoid α]
    (key : ρ → κ) (meas : ρ → α) (t : List ρ) :
    ((groupSum key meas t).map Prod.snd).sum = (t.map meas).sum := by
  have h := sum_values_foldl_insert key meas t []
  simpa [groupSum] using h

/-- Aggregating a table built by a row-wise transformation equals aggregating
the original table with the transformed key and measure. -/
theorem groupSum_map {ρ σ κ α : Type} [DecidableEq κ] [AddMonoid α]
    (f : ρ → σ) (key : σ → κ) (meas : σ → α) (t : List ρ) :
    groupSum key meas (t.map f) = groupSum (fun r => key (f r)) (fun r => meas (f r)) t := by
  simp [groupSum, List.foldl_map]

theorem sum_map_pair {ρ β γ : Type} [AddMonoid β] [AddMonoid γ]
    (f : ρ → β) (g : ρ → γ) (l : List ρ) :
    (l.map (fun r => (f r, g r))).sum = ((l.map f).sum, (l.map g).sum) := by
  induction l with
  | nil => simp
  | cons x xs ih => simp [ih, Prod.ext_iff]

theorem sum_map_one {ρ : Type} (l : List ρ) :
    (l.map (fun _ => (1 : ℕ))).sum = l.length := by
  induction l with
  | nil => simp
  | cons x xs ih => simp [ih, Nat.add_comm]

/-- Cell-11 `region_summary`: `df.groupby('region').agg({'sales': 'sum',
'cost': 'sum', 'profit': 'sum'})`, one `(sales, cost, profit)` sum triple per
region. -/
def region_summary (t : List Row) : List (String × (Int × Int × Int)) :=
  groupSum Row.region (fun r => (r.sales, r.cost, r.profit)) t

/-- Cell-11 `profit_margin` column: `profit / sales * 100`, before the final
`.round(2)` display rounding (floats modelled as exact rationals). -/
def profit_margin (sales profit : Int) : ℚ := (profit : ℚ) / (sales : ℚ) * 100

/-- Cell-12 `pd.pivot_table(df, values='profit', index='region',
columns='product', aggfunc='mean')`, accumulated as (profit sum, row count)
per `(region, product)` cell. -/
def pivot_groups (t : List Row) : List ((String × String) × (Int × ℕ)) :=
  groupSum (fun r => (r.region, r.product)) (fun r => (r.profit, (1 : ℕ))) t

/-- One entry of the cell-12 pivot table: the mean profit of the
`(region, product)` cell, before the final `.round(2)` (floats modelled as
exact rationals). -/
def pivot_entry (t : List Row) (region product : String) : Option ℚ :=
  (lookupKey (region, product) (pivot_groups t)).map (fun sn => (sn.1 : ℚ) / (sn.2 : ℚ))

/-- Zero-padded two-digit rendering of a month number, as in `%m`. -/
def pad2 (n : Nat) : String := if n < 10 then "0" ++ toString n else toString n

/-- Cell-13 `df['date'].dt.strftime('%Y-%m')` applied to one date. -/
def month_str (d : Date) : String := toString d.year ++ "-" ++ pad2 d.month

/-- A row of `df` after cell-13's `df['month'] = ...` assignment: the original
row plus the derived `month` column. -/
structure RowM extends Row where
  month : String
deriving DecidableEq, Repr

/-- Cell-13 `df['month'] = df['date'].dt.strftime('%Y-%m')`: every row gains
the derived month string; no other field changes. -/
def add_month_column (t : List Row) : List RowM :=
  t.map (fun r => { toRow := r, month := month_str r.date })

/-- Cell-13 `monthly_sales`: `df.groupby('month').agg({'sales': 'sum',
'profit': 'sum'})`. -/
def monthly_sales (tm : List RowM) : List (String × (Int × Int)) :=
  groupSum (fun rm => rm.month) (fun rm => (rm.sales, rm.profit)) tm

/-- Cell-14 `product_profit`: `df.groupby('product')['profit'].sum()`. -/
def product_profit (t : List Row) : List (String × Int) :=
  groupSum Row.product Row.profit t

/-- Cell-14 `total_profit`: `product_profit['profit'].sum()`. -/
def total_profit (t : List Row) : Int := ((product_profit t).map Prod.snd).sum

/-- Cell-14 `contribution_percentage` column: `profit / total_profit * 100`
per product, before the final `.round(2)` (floats modelled as exact
rationals). -/
def contribution_percentages (t : List Row) : List ℚ :=
  (product_profit t).map (fun kv => (kv.2 : ℚ) / (total_profit t : ℚ) * 100)

/-- Cell-20 `product_monthly`:
`df.groupby(['month', 'product'])['sales'].sum()`, reading the `month`
column added by cell-13. -/
def product_monthly (tm : List RowM) : List ((String × String) × Int) :=
  groupSum (fun rm => (rm.month, rm.product)) (fun rm => rm.sales) tm

/-- The cell-20 aggregation re-expressed directly over the step-1 table,
deriving the month key from the `date` column on the fly. -/
def product_monthly_direct (t : List Row) : List ((String × String) × Int) :=
  groupSum (fun r => (month_str r.date, r.product)) Row.sales t

/-- Consecutive relative changes `(x - prev) / prev` along a list, starting
from a given previous value. -/
def ratesFrom (prev : ℚ) : List ℚ → List ℚ
  | [] => []
  | x :: xs => (x - prev) / prev :: ratesFrom x xs

/-- Pandas `Series.pct_change()` (floats modelled as exact rationals): the
first entry is NaN, modelled as `none`; every later entry is the relative
change from the previous value. -/
def pct_change (xs : List ℚ) : List (Option ℚ) :=
  match xs with
  | [] => []
  | x :: rest => none :: (ratesFrom x rest).map some

/-- Cell-27 `growth_rate` column: `monthly_sales['sales'].pct_change() * 100`
(NaN stays NaN). -/
def growth_rate (xs : List ℚ) : List (Option ℚ) :=
  (pct_change xs).map (Option.map (· * 100))

/-- Cell-27 reported table: the `growth_rate` column after `.dropna()`, which
removes the rows whose growth rate is NaN. -/
def reported_growth (xs : List ℚ) : List ℚ :=
  (growth_rate xs).filterMap id

/-- An untyped cell value of the DataFrame. -/
inductive Value where
  | vDate : Date → Value
  | vStr : String → Value
  | vInt : Int → Value
deriving DecidableEq, Repr

/-- An untyped row: the association list of column name to value, matching
the dict literal appended by each cell-3 loop iteration. -/
abbrev URow := List (String × Value)

/-- The cell-3 dict literal for one row, keys in source order. -/
def rowDict (r : Row) : URow :=
  [("date", .vDate r.date), ("region", .vStr r.region), ("product", .vStr r.product),
   ("sales", .vInt r.sales), ("cost", .vInt r.cost), ("profit", .vInt r.profit)]

/-- The cell-3 DataFrame in untyped (column-labelled) form. -/
def df_u (draw : Nat → Int × Int) : List URow := (generate draw).map rowDict

/-- Column assignment on one row: replace the value at an existing column, or
append a new column at the end — pandas `df[name] = ...` semantics. -/
def setField (name : String) (v : Value) : URow → URow
  | [] => [(name, v)]
  | (k, w) :: rest => if k = name then (k, v) :: rest else (k, w) :: setField name v rest

/-- `df[name] = ...` with a row-wise right-hand side, over the whole table. -/
def setColumn (name : String) (f : URow → Value) (t : List URow) : List URow :=
  t.map (fun row => setField name (f row) row)

/-- Column labels of the DataFrame; the construction gives every row the same
keys, so the first row carries them. -/
def columns (t : List URow) : List String :=
  match t with
  | [] => []
  | row :: _ => row.map Prod.fst

/-- Cell-13's mutation of `df` in untyped form:
`df['month'] = df['date'].dt.strftime('%Y-%m')`.  On the real table every row
has a date value; a row without one would get an empty string, a case the
notebook's table never reaches. -/
def cell13_u (t : List URow) : List URow :=
  setColumn "month" (fun row =>
    match lookupKey "date" row with
    | some (.vDate d) => .vStr (month_str d)
    | _ => .vStr "") t

/-- Read a string column from an untyped row; `none` models pandas raising
`KeyError` for a missing column. -/
def getStr (row : URow) (k : String) : Option String :=
  match lookupKey k row with
  | some (.vStr s) => some s
  | _ => none

/-- Read an integer column from an untyped row; `none` models a missing
column. -/
def getInt (row : URow) (k : String) : Option Int :=
  match lookupKey k row with
  | some (.vInt n) => some n
  | _ => none

/-- Cell-20 `df.groupby(['month', 'product'])['sales'].sum()` in untyped
form: fails (pandas `KeyError`) unless every row carries `month`, `product`
and `sales` columns of the expected kinds. -/
def cell20_u (t : List URow) : Option (List ((String × String) × Int)) :=
  (t.mapM (fun row => do
    let m ← getStr row "month"
    let p ← getStr row "product"
    let s ← getInt row "sales"
    pure ((m, p), s))).map (groupSum Prod.fst Prod.snd)

theorem lookupKey_setField_ne (k name : String) (hk : k ≠ name) (v : Value) (row : URow) :
    lookupKey k (setField name v row) = lookupKey k row := by
  induction row with
  | nil =>
      have : ¬ name = k := fun h => hk h.symm
      simp [setField, lookupKey, this]
  | cons p rest ih =>
      obtain ⟨k0, w⟩ := p
      by_cases h0 : k0 = name
      · subst h0
        have : ¬ k0 = k := fun h => hk h.symm
        simp [setField, lookupKey, this]
      · by_cases h1 : k0 = k <;> simp [setField, lookupKey, h0, h1, ih, hk]

/-- A column assignment leaves every other column of every row unchanged and
keeps the row count. -/
theorem setColumn_preserves (name : String) (f : URow → Value) (t : List URow)
    (k : String) (hk : k ≠ name) :
    (setColumn name f t).length = t.length ∧
    (setColumn name f t).map (lookupKey k) = t.map (lookupKey k) := by
  constructor
  · simp [setColumn]
  · simp only [setColumn, List.map_map]
    exact List.map_congr_left (fun row _ => lookupKey_setField_ne k name hk (f row) row)

theorem generate_row_profit (draw : Nat → Int × Int) :
    ∀ r ∈ generate draw, r.profit = r.sales - r.cost := by
  intro r hr
  simp only [generate, List.mem_map] at hr
  obtain ⟨ic, _, rfl⟩ := hr
  rfl

theorem combos_nodup : combos.Nodup := by decide

theorem mem_combos (r p : String) (m : Date) (hr : r ∈ regions) (hp : p ∈ products)
    (hm : m ∈ months) : (r, p, m) ∈ combos := by
  simp only [combos, List.mem_flatMap, List.mem_map]
  exact ⟨r, hr, p, hp, m, hm, rfl⟩

theorem length_filter_eq_one_of_nodup {α : Type} [DecidableEq α] (l : List α) (a : α)
    (hn : l.Nodup) (hm : a ∈ l) :
    (l.filter (fun x => decide (x = a))).length = 1 := by
  induction l with
  | nil => simp at hm
  | cons x xs ih =>
      rw [List.nodup_cons] at hn
      by_cases hxa : x = a
      · subst hxa
        have hnil : xs.filter (fun y => decide (y = x)) = [] := by
          rw [List.filter_eq_nil_iff]
          intro b hb
          simp only [decide_eq_true_eq]
          intro hbx
          exact hn.1 (hbx ▸ hb)
        simp [List.filter_cons, hnil]
      · have hm2 : a ∈ xs := by
          rcases List.mem_cons.mp hm with h1 | h1
          · exact absurd h1.symm hxa
          · exact h1
        simp [List.filter_cons, hxa, ih hn.2 hm2]

theorem count_key_generate (draw : Nat → Int × Int) (r p : String) (m : Date)
    (hmem : (r, p, m) ∈ combos) :
    ((generate draw).filter (fun row => decide (keyOf row = (r, p, m)))).length = 1 := by
  have hfm := List.filter_map (p := fun k => decide (k = (r, p, m))) keyOf (generate draw)
  have hlen : ((generate draw).filter (fun row => decide (keyOf row = (r, p, m)))).length
      = (((generate draw).map keyOf).filter (fun k => decide (k = (r, p, m)))).length := by
    rw [hfm, List.length_map]
    rfl
  rw [hlen, keys_generate]
  exact length_filter_eq_one_of_nodup combos _ combos_nodup hmem

theorem sum_map_sub {ρ : Type} (f g : ρ → Int) (l : List ρ) :
    (l.map (fun r => f r - g r)).sum = (l.map f).sum - (l.map g).sum := by
  induction l with
  | nil => simp
  | cons x xs ih =>
      simp only [List.map_cons, List.sum_cons, ih]
      ring

theorem sum_map_triple (f g h : Row → Int) (l : List Row) :
    (l.map (fun r => (f r, g r, h r))).sum =
      ((l.map f).sum, (l.map g).sum, (l.map h).sum) := by
  calc (l.map (fun r => (f r, g r, h r))).sum
      = ((l.map f).sum, (l.map (fun r => (g r, h r))).sum) := sum_map_pair f (fun r => (g r, h r)) l
    _ = ((l.map f).sum, (l.map g).sum, (l.map h).sum) := by rw [sum_map_pair g h l]

/-- If a key has an entry in a sum-aggregating group-by, the entry is the sum
of the measure over the rows that carry that key. -/
theorem lookupKey_groupSum_of_some {ρ κ α : Type} [DecidableEq κ] [AddMonoid α]
    {key : ρ → κ} {meas : ρ → α} {t : List ρ} {k : κ} {v : α}
    (h : lookupKey k (groupSum key meas t) = some v) :
    v = ((t.filter (fun r => decide (key r = k))).map meas).sum := by
  rw [lookupKey_groupSum] at h
  by_cases he : ((t.filter (fun r => decide (key r = k))).isEmpty) = true
  · rw [if_pos he] at h
    cases h
  · rw [if_neg he] at h
    exact (Option.some.inj h).symm

theorem region_summary_lookup (t : List Row) (k : String) (s c p : Int)
    (h : lookupKey k (region_summary t) = some (s, c, p)) :
    s = ((t.filter (fun r => decide (r.region = k))).map Row.sales).sum ∧
    c = ((t.filter (fun r => decide (r.region = k))).map Row.cost).sum ∧
    p = ((t.filter (fun r => decide (r.region = k))).map Row.profit).sum := by
  unfold region_summary at h
  have h2 := lookupKey_groupSum_of_some h
  rw [sum_map_triple Row.sales Row.cost Row.profit] at h2
  rw [Prod.mk.injEq, Prod.mk.injEq] at h2
  exact ⟨h2.1, h2.2.1, h2.2.2⟩

theorem pivot_entry_lookup (t : List Row) (rg pd : String) (q : ℚ)
    (h : pivot_entry t rg pd = some q) :
    q = ((((t.filter (fun row => decide ((row.region, row.product) = (rg, pd)))).map
            Row.profit).sum : Int) : ℚ) /
        (((t.filter (fun row => decide ((row.region, row.product) = (rg, pd)))).length : ℕ) : ℚ) := by
  unfold pivot_entry pivot_groups at h
  rcases Option.map_eq_some'.mp h with ⟨sn, hsn, hq⟩
  have h2 := lookupKey_groupSum_of_some hsn
  rw [sum_map_pair Row.profit (fun _ => (1 : ℕ))] at h2
  rw [sum_map_one] at h2
  rw [← hq, h2]

theorem ratesFrom_length (prev : ℚ) (xs : List ℚ) :
    (ratesFrom prev xs).length = xs.length := by
  induction xs generalizing prev with
  | nil => rfl
  | cons x rest ih => simp [ratesFrom, ih]

theorem ratesFrom_getElem (rest : List ℚ) (i : Nat) (prev a b : ℚ)
    (ha : (prev :: rest)[i]? = some a) (hb : rest[i]? = some b) :
    (ratesFrom prev rest)[i]? = some ((b - a) / a) := by
  induction i generalizing prev rest with
  | zero =>
      cases rest with
      | nil => simp at hb
      | cons y rest2 =>
          have ha2 : prev = a := by simpa using ha
          have hb2 : y = b := by simpa using hb
          subst ha2; subst hb2
          simp [ratesFrom]
  | succ i ih =>
      cases rest with
      | nil => simp at hb
      | cons y rest2 =>
          have ha2 : (y :: rest2)[i]? = some a := by simpa using ha
          have hb2 : rest2[i]? = some b := by simpa using hb
          simpa [ratesFrom] using ih rest2 y ha2 hb2

theorem filterMap_id_some_map (f : ℚ → ℚ) (l : List ℚ) :
    (l.map (fun v => some (f v))).filterMap id = l.map f := by
  induction l with
  | nil => rfl
  | cons x xs ih => simp [ih]

theorem generate_congr (d1 d2 : Nat → Int × Int) (h : ∀ i, i < 144 → d1 i = d2 i) :
    generate d1 = generate d2 := by
  unfold generate
  apply List.map_congr_left
  intro ic hic
  have hlt : ic.1 < 144 := by
    have := List.fst_lt_of_mem_enum hic
    simpa [length_combos] using this
  rw [h ic.1 hlt]

/-- Concrete oracle stream used by the witnesses: iteration `i` yields
`(sales, cost) = (i + 10, i)`, so every row has profit `10`. -/
def drawW : Nat → Int × Int := fun i => ((i : Int) + 10, (i : Int))

/-- Claim C1: every row of the generated table satisfies
`profit = sales - cost` at construction, and the identity still holds for
every row after cell-13's column assignment, the only later step that
changes the DataFrame's rows. -/
theorem profit_identity_all_steps (draw : Nat → Int × Int) :
    (∀ r ∈ generate draw, r.profit = r.sales - r.cost) ∧
    (∀ rm ∈ add_month_column (generate draw), rm.profit = rm.sales - rm.cost) := by
  refine ⟨generate_row_profit draw, ?_⟩
  intro rm hrm
  simp only [add_month_column, List.mem_map] at hrm
  obtain ⟨r, hr, rfl⟩ := hrm
  exact generate_row_profit draw r hr

/-- Witness for C1: the first generated row of a concrete run satisfies the
identity. -/
theorem profit_identity_all_steps_witness :
    (⟨⟨2023, 1, 31⟩, "North", "Product A", 10, 0, 10⟩ : Row) ∈ generate drawW ∧
    (⟨⟨2023, 1, 31⟩, "North", "Product A", 10, 0, 10⟩ : Row).profit
      = (⟨⟨2023, 1, 31⟩, "North", "Product A", 10, 0, 10⟩ : Row).sales
        - (⟨⟨2023, 1, 31⟩, "North", "Product A", 10, 0, 10⟩ : Row).cost :=
  ⟨by decide, (profit_identity_all_steps drawW).1 _ (by decide)⟩

/-- Claim C2 counterexample: the claim says no step executed after the
DataFrame is built changes its set of columns, but cell-13's
`df['month'] = ...` assignment extends the column set of `df` with `month`. -/
theorem cell13_mutates_df_columns :
    columns (cell13_u (df_u drawW)) ≠ columns (df_u drawW) ∧
    columns (df_u drawW) = ["date", "region", "product", "sales", "cost", "profit"] ∧
    columns (cell13_u (df_u drawW))
      = ["date", "region", "product", "sales", "cost", "profit", "month"] := by
  decide

/-- Claim C2 (amended): the only mutation of `df` after construction is
cell-13 appending the derived `month` column; that assignment keeps the row
count and leaves the values of every pre-existing column unchanged at every
row. -/
theorem cell13_only_adds_month_column (draw : Nat → Int × Int) (k : String)
    (hk : k ≠ "month") :
    (cell13_u (df_u draw)).length = (df_u draw).length ∧
    (cell13_u (df_u draw)).map (lookupKey k) = (df_u draw).map (lookupKey k) :=
  setColumn_preserves "month" _ (df_u draw) k hk

/-- Witness for the amended C2 at the `sales` column of a concrete run. -/
theorem cell13_only_adds_month_column_witness :
    ("sales" : String) ≠ "month" ∧
    ((cell13_u (df_u drawW)).length = (df_u drawW).length ∧
     (cell13_u (df_u drawW)).map (lookupKey "sales") = (df_u drawW).map (lookupKey "sales")) :=
  ⟨by decide, cell13_only_adds_month_column drawW "sales" (by decide)⟩

/-- Claim C3 counterexample: the claim says each analysis step depends on the
step-1 table alone and on no column introduced by another step, but cell-20's
group-by reads the `month` column: run directly on the step-1 table it fails
with a `KeyError` (modelled as `none`) and only succeeds after cell-13. -/
theorem cell20_depends_on_cell13_column :
    cell20_u (df_u drawW) = none ∧
    (cell20_u (cell13_u (df_u drawW))).isSome = true := by
  decide

/-- Claim C3 (amended): cell-20 reads the `month` column introduced by
cell-13, so the steps are not all self-contained; still, since `month` is a
function of the step-1 `date` column, cell-20's result after cell-13 equals a
direct aggregation of the step-1 table, so two runs that agree on the step-1
table produce the same result. -/
theorem cell20_factors_through_step1 (t : List Row) :
    product_monthly (add_month_column t) = product_monthly_direct t := by
  unfold product_monthly add_month_column product_monthly_direct
  rw [groupSum_map]

/-- Claim C4: 4 regions, 3 products, 12 month-end dates all in 2023 with
pairwise distinct months; the generated table has 144 rows and every
(region, product, month) combination occupies exactly one row. -/
theorem generation_shape (draw : Nat → Int × Int) :
    regions.length = 4 ∧ products.length = 3 ∧ months.length = 12 ∧
    (∀ d ∈ months, d.year = 2023) ∧ (months.map Date.month).Nodup ∧
    (generate draw).length = 144 ∧
    (∀ r ∈ regions, ∀ p ∈ products, ∀ m ∈ months,
      ((generate draw).filter (fun row => decide (keyOf row = (r, p, m)))).length = 1) := by
  refine ⟨by decide, by decide, by decide, by decide, by decide, length_generate draw, ?_⟩
  intro r hr p hp m hm
  exact count_key_generate draw r p m (mem_combos r p m hr hp hm)

/-- Witness for C4 at a concrete run and the first combination. -/
theorem generation_shape_witness :
    ("North" ∈ regions ∧ "Product A" ∈ products ∧ (⟨2023, 1, 31⟩ : Date) ∈ months) ∧
    ((generate drawW).filter
      (fun row => decide (keyOf row = ("North", "Product A", ⟨2023, 1, 31⟩)))).length = 1 :=
  ⟨⟨by decide, by decide, by decide⟩,
    (generation_shape drawW).2.2.2.2.2.2 "North" (by decide) "Product A" (by decide)
      ⟨2023, 1, 31⟩ (by decide)⟩

/-- Claim C5: every entry of the cell-11 region summary holds exactly the
sums of sales, cost and profit over the rows whose region equals the entry's
key. -/
theorem region_summary_sums (t : List Row) (k : String) (s c p : Int)
    (h : lookupKey k (region_summary t) = some (s, c, p)) :
    s = ((t.filter (fun r => decide (r.region = k))).map Row.sales).sum ∧
    c = ((t.filter (fun r => decide (r.region = k))).map Row.cost).sum ∧
    p = ((t.filter (fun r => decide (r.region = k))).map Row.profit).sum :=
  region_summary_lookup t k s c p h

/-- Witness for C5: the North entry of a concrete run. -/
theorem region_summary_sums_witness :
    lookupKey "North" (region_summary (generate drawW)) = some (990, 630, 360) ∧
    ((990 : Int) = (((generate drawW).filter
        (fun r => decide (r.region = "North"))).map Row.sales).sum ∧
     (630 : Int) = (((generate drawW).filter
        (fun r => decide (r.region = "North"))).map Row.cost).sum ∧
     (360 : Int) = (((generate drawW).filter
        (fun r => decide (r.region = "North"))).map Row.profit).sum) :=
  ⟨by decide, region_summary_sums (generate drawW) "North" 990 630 360 (by decide)⟩

/-- Claim C6: every defined entry of the cell-12 pivot table at
(region, product) is the arithmetic mean of `profit` over exactly the rows
with that region and product. -/
theorem pivot_table_means (t : List Row) (rg pd : String) (q : ℚ)
    (h : pivot_entry t rg pd = some q) :
    q = ((((t.filter (fun row => decide ((row.region, row.product) = (rg, pd)))).map
            Row.profit).sum : Int) : ℚ) /
        (((t.filter (fun row => decide ((row.region, row.product) = (rg, pd)))).length : ℕ) : ℚ) :=
  pivot_entry_lookup t rg pd q h

/-- Witness for C6: the (North, Product A) pivot cell of a concrete run,
whose profit sum is 120 over 12 rows. -/
theorem pivot_table_means_witness :
    pivot_entry (generate drawW) "North" "Product A"
      = some (((120 : Int) : ℚ) / ((12 : ℕ) : ℚ)) ∧
    (((120 : Int) : ℚ) / ((12 : ℕ) : ℚ))
      = (((((generate drawW).filter (fun row =>
          decide ((row.region, row.product) = ("North", "Product A")))).map
            Row.profit).sum : Int) : ℚ) /
        ((((generate drawW).filter (fun row =>
          decide ((row.region, row.product) = ("North", "Product A")))).length : ℕ) : ℚ) :=
  ⟨by rfl, pivot_table_means (generate drawW) "North" "Product A" _ (by rfl)⟩

/-- Claim C7: `pct_change` makes the first month's growth rate undefined and
every later month's equal to `(sales - prev) / prev`; cell-27 multiplies by
100 and `dropna()` drops exactly the first month from the reported table. -/
theorem growth_rate_pct_change (xs : List ℚ) (i : Nat) (a b : ℚ)
    (ha : xs[i]? = some a) (hb : xs[i + 1]? = some b) (_hz : a ≠ 0) :
    (growth_rate xs)[0]? = some none ∧
    (growth_rate xs)[i + 1]? = some (some ((b - a) / a * 100)) ∧
    (reported_growth xs).length = xs.length - 1 ∧
    (reported_growth xs)[i]? = some ((b - a) / a * 100) := by
  cases xs with
  | nil => simp at ha
  | cons x rest =>
    have hgr : growth_rate (x :: rest)
        = none :: (ratesFrom x rest).map (fun v => some (v * 100)) := by
      simp [growth_rate, pct_change, List.map_map, Function.comp_def]
    have hrep : reported_growth (x :: rest) = (ratesFrom x rest).map (fun v => v * 100) := by
      rw [reported_growth, hgr]
      have h0 : (none :: (ratesFrom x rest).map (fun v => some (v * 100))).filterMap id
          = ((ratesFrom x rest).map (fun v => some (v * 100))).filterMap id := rfl
      rw [h0, filterMap_id_some_map]
    have hb2 : rest[i]? = some b := by simpa using hb
    have hrates := ratesFrom_getElem rest i x a b ha hb2
    refine ⟨?_, ?_, ?_, ?_⟩
    · rw [hgr]
      simp
    · rw [hgr]
      simp only [List.getElem?_cons_succ, List.getElem?_map, hrates, Option.map_some']
    · rw [hrep]
      simp [ratesFrom_length]
    · rw [hrep]
      simp only [List.getElem?_map, hrates, Option.map_some']

/-- Witness for C7 on a concrete three-month series. -/
theorem growth_rate_pct_change_witness :
    (([100, 150, 120] : List ℚ)[0]? = some 100 ∧
     ([100, 150, 120] : List ℚ)[0 + 1]? = some 150 ∧ (100 : ℚ) ≠ 0) ∧
    ((growth_rate [100, 150, 120])[0]? = some none ∧
     (growth_rate [100, 150, 120])[0 + 1]? = some (some ((150 - 100) / 100 * 100)) ∧
     (reported_growth [100, 150, 120]).length = ([100, 150, 120] : List ℚ).length - 1 ∧
     (reported_growth [100, 150, 120])[0]? = some ((150 - 100) / 100 * 100)) :=
  ⟨⟨by decide, by decide, by decide⟩,
    growth_rate_pct_change [100, 150, 120] 0 100 150 (by decide) (by decide) (by decide)⟩

/-- Claim C8: generation is deterministic given the fixed seed: two runs
whose seeded generators produce the same draws for the 144 consumed
iterations generate tables equal row for row. -/
theorem generation_deterministic (prng1 prng2 : Nat → Nat → Int × Int)
    (h : ∀ i, i < 144 → prng1 42 i = prng2 42 i) :
    run_generation prng1 42 = run_generation prng2 42 := by
  unfold run_generation
  exact generate_congr _ _ h

/-- Concrete generator for the C8 witness. -/
def prngA : Nat → Nat → Int × Int := fun _ i => ((i : Int), 0)

/-- Second concrete generator for the C8 witness: agrees with `prngA` on the
144 consumed draws and differs afterwards. -/
def prngB : Nat → Nat → Int × Int := fun _ i => if i < 144 then ((i : Int), 0) else (99, 99)

/-- Witness for C8 on two concrete generators. -/
theorem generation_deterministic_witness :
    (∀ i, i < 144 → prngA 42 i = prngB 42 i) ∧
    run_generation prngA 42 = run_generation prngB 42 :=
  ⟨by decide, generation_deterministic prngA prngB (by decide)⟩

/-- Claim C9: group-by summation preserves the per-row profit identity: each
region's summed profit equals summed sales minus summed cost, and the
unrounded profit margin equals `100 * (1 - cost / sales)`. -/
theorem region_summary_profit_identity (t : List Row)
    (hrow : ∀ r ∈ t, r.profit = r.sales - r.cost)
    (k : String) (s c p : Int)
    (h : lookupKey k (region_summary t) = some (s, c, p)) :
    p = s - c ∧ (s ≠ 0 → profit_margin s p = 100 * (1 - (c : ℚ) / (s : ℚ))) := by
  obtain ⟨hs, hc, hp⟩ := region_summary_lookup t k s c p h
  have hmap : (t.filter (fun r => decide (r.region = k))).map Row.profit
      = (t.filter (fun r => decide (r.region = k))).map (fun r => r.sales - r.cost) :=
    List.map_congr_left (fun r hr => hrow r (List.mem_of_mem_filter hr))
  have hpsc : p = s - c := by
    rw [hp, hmap, sum_map_sub Row.sales Row.cost, ← hs, ← hc]
  refine ⟨hpsc, ?_⟩
  intro hs0
  have hsQ : (s : ℚ) ≠ 0 := Int.cast_ne_zero.mpr hs0
  rw [profit_margin, hpsc]
  push_cast
  field_simp
  ring

/-- Witness for C9: the North entry of a concrete run. -/
theorem region_summary_profit_identity_witness :
    (∀ r ∈ generate drawW, r.profit = r.sales - r.cost) ∧
    lookupKey "North" (region_summary (generate drawW)) = some (990, 630, 360) ∧
    (360 : Int) = 990 - 630 ∧
    profit_margin 990 360 = 100 * (1 - (630 : ℚ) / (990 : ℚ)) := by
  refine ⟨by decide, by decide, ?_, ?_⟩
  · exact (region_summary_profit_identity (generate drawW) (by decide) "North" 990 630 360
      (by decide)).1
  · exact (region_summary_profit_identity (generate drawW) (by decide) "North" 990 630 360
      (by decide)).2 (by decide)

/-- Claim C10: the per-product profit sums partition the table's total
profit, and when the total is nonzero the unrounded contribution percentages
sum to exactly 100. -/
theorem contribution_percentages_total (t : List Row) (h : total_profit t ≠ 0) :
    total_profit t = (t.map Row.profit).sum ∧
    (contribution_percentages t).sum = 100 := by
  constructor
  · exact sum_values_groupSum Row.product Row.profit t
  · have hT : ((total_profit t : Int) : ℚ) ≠ 0 := Int.cast_ne_zero.mpr h
    have hcongr : contribution_percentages t
        = (product_profit t).map
            (fun kv => ((kv.2 : Int) : ℚ) * (100 / ((total_profit t : Int) : ℚ))) := by
      unfold contribution_percentages
      apply List.map_congr_left
      intro kv _
      rw [div_mul_eq_mul_div, mul_div_assoc]
    rw [hcongr, List.sum_map_mul_right]
    have hcast : ((product_profit t).map (fun kv => ((kv.2 : Int) : ℚ))).sum
        = ((total_profit t : Int) : ℚ) := by
      rw [total_profit, Int.cast_list_sum, List.map_map]
      rfl
    rw [hcast, mul_comm]
    exact div_mul_cancel₀ 100 hT

/-- Witness for C10 on a concrete run with total profit 1440. -/
theorem contribution_percentages_total_witness :
    total_profit (generate drawW) ≠ 0 ∧
    (total_profit (generate drawW) = ((generate drawW).map Row.profit).sum ∧
     (contribution_percentages (generate drawW)).sum = 100) :=
  ⟨by decide, contribution_percentages_total (generate drawW) (by decide)⟩

end Share
